import Mathlib

/-!
Verification of the session-isolated CSV ingestion-and-search frontend
(`src/frontend/js/app.js` and its extended variant `src/unnamed/part_000`).

Pure JavaScript string/list manipulations are embedded as Lean functions on
`String` / `List Char`; stateful component methods are embedded as pure
functions from their observable inputs (component state, fetched data,
browser storage content) to their observable outputs (new state, the request
they would issue, the alert they would raise).
-/

namespace ElasticApp

/-- A character allowed by the restricted index-name alphabet `[a-z0-9_-]`
used in `handleFileSelect`'s regex replacement. -/
def charAllowed (c : Char) : Bool :=
  ('a' ≤ c && c ≤ 'z') || ('0' ≤ c && c ≤ '9') || c = '_' || c = '-'

/-- Embeds the JavaScript regex replace `.replace(/[^a-z0-9_-]/g, '_')`:
every character outside `[a-z0-9_-]` becomes `'_'`. -/
def replaceDisallowed (s : List Char) : List Char :=
  s.map (fun c => if charAllowed c then c else '_')

/-- Embeds JavaScript `String.prototype.toLowerCase` character-wise
(ASCII letters are lower-cased; this agrees with the JS behaviour on the
ASCII range, which is all the allowed alphabet can retain anyway). -/
def jsToLower (s : List Char) : List Char :=
  s.map Char.toLower

/-- Embeds JavaScript `str.replace(pat, '')` for a plain (non-regex) string
pattern: removes the first occurrence of `pat`, or returns the input
unchanged when `pat` does not occur. -/
def stripFirst (pat : List Char) : List Char → List Char
  | [] => []
  | c :: cs =>
    if pat.isPrefixOf (c :: cs) then (c :: cs).drop pat.length
    else c :: stripFirst pat cs

/-- Embeds `handleFileSelect` lines 53–54:
`file.name.replace('.csv', '').toLowerCase().replace(/[^a-z0-9_-]/g, '_')`. -/
def autoIndexName (fileName : String) : String :=
  ⟨replaceDisallowed (jsToLower (stripFirst ".csv".data fileName.data))⟩

/-- Modelled from the spec: §4.1 IndexNameResolver normalization, the
backend half that is not under `src/` — "Normalizes `raw_name` by
lower-casing and replacing every character outside `[a-z0-9_-]` with `_`". -/
def normalizeName (raw : String) : String :=
  ⟨replaceDisallowed (jsToLower raw.data)⟩

/-- Error raised by the resolver when normalization yields an empty name. -/
inductive ResolveError where
  | invalidName
deriving DecidableEq, Repr

/-- Modelled from the spec: §4.1 IndexNameResolver composition, the backend
half that is not under `src/` — composes `temp-<session_token>-<name>` from
the normalized name, failing with `InvalidNameError` when the normalized
name is empty. -/
def resolve (sessionToken raw : String) : Except ResolveError String :=
  if normalizeName raw = "" then .error .invalidName
  else .ok ("temp-" ++ sessionToken ++ "-" ++ normalizeName raw)

/-- A hexadecimal-digit character, the class `[0-9a-fA-F]` of the regex in
`loadIndices` line 158. -/
def isHexChar (c : Char) : Bool :=
  ('0' ≤ c && c ≤ '9') || ('a' ≤ c && c ≤ 'f') || ('A' ≤ c && c ≤ 'F')

/-- Consume an exact literal character sequence from the front of the input,
returning the rest, or `none` when the input does not start with it. -/
def consumeLit : List Char → List Char → Option (List Char)
  | [], s => some s
  | _ :: _, [] => none
  | p :: ps, c :: cs => if c = p then consumeLit ps cs else none

/-- Consume exactly `n` hexadecimal characters from the front of the input,
returning the rest, or `none` on failure. -/
def consumeHex : Nat → List Char → Option (List Char)
  | 0, s => some s
  | _ + 1, [] => none
  | n + 1, c :: cs => if isHexChar c then consumeHex n cs else none

/-- The `[0-9a-fA-F]{8}-[0-9a-fA-F]{4}-[0-9a-fA-F]{4}-[0-9a-fA-F]{4}-[0-9a-fA-F]{12}`
core of the regex in `loadIndices` line 158: an 8-4-4-4-12 hex-group UUID. -/
def matchUuid (s : List Char) : Option (List Char) :=
  Option.bind (consumeHex 8 s) fun s =>
  Option.bind (consumeLit ['-'] s) fun s =>
  Option.bind (consumeHex 4 s) fun s =>
  Option.bind (consumeLit ['-'] s) fun s =>
  Option.bind (consumeHex 4 s) fun s =>
  Option.bind (consumeLit ['-'] s) fun s =>
  Option.bind (consumeHex 4 s) fun s =>
  Option.bind (consumeLit ['-'] s) fun s =>
  consumeHex 12 s

/-- The full anchored pattern `^temp-<8-4-4-4-12 hex UUID>-` of
`loadIndices` line 158; returns the remainder after the match. -/
def matchTempUuidDash (s : List Char) : Option (List Char) :=
  Option.bind (consumeLit "temp-".data s) fun s =>
  Option.bind (matchUuid s) fun s =>
  consumeLit ['-'] s

/-- Embeds `loadIndices` line 158: the `replace` on `index.name` of the
anchored regex `temp-` + 8-4-4-4-12 hex groups + `-` by the empty string.
A JavaScript regex `replace` with a non-matching pattern returns the input
unchanged. -/
def displayName (s : String) : String :=
  match matchTempUuidDash s.data with
  | some rest => ⟨rest⟩
  | none => s

/-- A session token of the exact 8-4-4-4-12 hex UUID shape that the
display regex of `loadIndices` expects. -/
def isUuidShaped (s : String) : Bool :=
  matchUuid s.data == some []

/-- A column of an index as returned by the `/api/indices` endpoint:
`{name, type}`. -/
structure Column where
  name : String
  type : String
deriving DecidableEq, Repr

/-- An index as held in `this.indices` after `loadIndices` wraps the API
response (line 155–159): the raw engine name in `full_name`, the stripped
display name in `name`, plus the column metadata. -/
structure IndexEntry where
  full_name : String
  name : String
  columns : List Column
deriving DecidableEq, Repr

/-- An index as it arrives from the `/api/indices` endpoint, before
`loadIndices` wraps it: `{name, columns}`. -/
structure ApiIndex where
  name : String
  columns : List Column
deriving DecidableEq, Repr

/-- Embeds the mapping of `loadIndices` lines 155–159: spread the API index,
keep the raw name as `full_name`, and strip the session part for `name`. -/
def toIndexEntry (i : ApiIndex) : IndexEntry :=
  { full_name := i.name, name := displayName i.name, columns := i.columns }

/-- The `this.indices` value produced by `loadIndices` from the response. -/
def loadIndicesEntries (resp : List ApiIndex) : List IndexEntry :=
  resp.map toIndexEntry

/-- Embeds `loadIndices` lines 162–165: auto-select the first index only
when the list is non-empty and nothing is selected (`!this.selectedIndex`,
the empty string being falsy). -/
def loadIndicesSelect (indices : List IndexEntry) (selected : String) : String :=
  if 0 < indices.length && selected == "" then
    match indices.head? with
    | some i => i.full_name
    | none => selected
  else selected

/-- The observable state change of a successful `loadIndices` run: the new
`this.indices` and the new `this.selectedIndex`. -/
def loadIndices (resp : List ApiIndex) (selected : String) :
    List IndexEntry × String :=
  let idx := loadIndicesEntries resp
  (idx, loadIndicesSelect idx selected)

/-- The JSON body `performSearch` posts to `/api/search` (lines 208–214). -/
structure SearchRequest where
  index_name : String
  query : String
  size : Nat
  agg_fields : List String
  session_id : String
deriving DecidableEq, Repr

/-- Embeds `performSearch` lines 199–201: the names of the text-typed
columns of the currently selected index
(`indices.find(i => i.full_name === selectedIndex)?.columns.filter(c =>
c.type === 'text').map(c => c.name) || []`). -/
def textAggFields (indices : List IndexEntry) (selectedIndex : String) :
    List String :=
  match indices.find? (fun i => i.full_name == selectedIndex) with
  | some i => (i.columns.filter (fun c => c.type == "text")).map (fun c => c.name)
  | none => []

/-- Embeds JavaScript `String.prototype.trim`: remove leading and trailing
whitespace characters. -/
def jsTrim (s : String) : String :=
  ⟨((s.data.dropWhile Char.isWhitespace).reverse.dropWhile
      Char.isWhitespace).reverse⟩

/-- Embeds `performSearch` lines 183–215 up to the `fetch` call: the two
guard clauses (each raising an alert and issuing no engine query) and the
construction of the request body. `sessionId = none` models `null`; the
JavaScript falsiness test `!this.sessionId` is true for `null` and `""`. -/
def performSearchRequest (sessionId : Option String)
    (indices : List IndexEntry) (selectedIndex searchQuery : String)
    (searchSize : Nat) : Except String SearchRequest :=
  if sessionId.getD "" == "" then
    .error "Error: No se pudo iniciar la sesión. Intenta recargar la página."
  else if selectedIndex == "" || jsTrim searchQuery == "" then
    .error "Selecciona un índice y escribe una consulta"
  else
    .ok { index_name := selectedIndex
          query := searchQuery
          size := searchSize
          agg_fields := textAggFields indices selectedIndex
          session_id := sessionId.getD "" }

/-- A `this.searchHistory` entry as pushed by `performSearch` lines 227–232:
`{query, time, results, timestamp}` (the float `search_time_seconds` is kept
as an exact rational, the `Date` as an epoch count). -/
structure SearchHistoryEntry where
  query : String
  time : ℚ
  results : Nat
  timestamp : Nat
deriving DecidableEq, Repr

/-- Embeds `performSearch` lines 226–237: `push` the new entry, then
`shift()` (remove the front element) when the length exceeds 10. -/
def pushSearchHistory (h : List SearchHistoryEntry)
    (e : SearchHistoryEntry) : List SearchHistoryEntry :=
  let h2 := h ++ [e]
  if 10 < h2.length then h2.drop 1 else h2

/-- One hexadecimal digit as produced by JavaScript `v.toString(16)` for
`v < 16`. -/
def hexDigit (n : Nat) : Char :=
  if n < 10 then Char.ofNat (48 + n) else Char.ofNat (87 + n)

/-- Embeds the template replacement inside `generateUUID`'s fallback
(lines 70–73): each `x` becomes a random hex digit, each `y` becomes
`(r & 0x3 | 0x8).toString(16)`; `rand k` supplies the k-th
`Math.random() * 16 | 0` draw (reduced mod 16 to reflect its range). -/
def uuidReplace (rand : Nat → Nat) : List Char → Nat → List Char
  | [], _ => []
  | c :: cs, k =>
    if c = 'x' then hexDigit (rand k % 16) :: uuidReplace rand cs (k + 1)
    else if c = 'y' then
      hexDigit ((rand k % 16) &&& 3 ||| 8) :: uuidReplace rand cs (k + 1)
    else c :: uuidReplace rand cs k

/-- Embeds `generateUUID`'s fallback branch (lines 65–75). -/
def generateUUID (rand : Nat → Nat) : String :=
  ⟨uuidReplace rand "xxxxxxxx-xxxx-4xxx-yxxx-xxxxxxxxxxxx".data 0⟩

/-- Embeds `initializeSession` (lines 80–93): read
`sessionStorage.getItem('userSessionId')` (`none` models `null`); generate
and store `freshId` only when the read value is falsy (`null` or `""`);
otherwise reuse the stored token and leave storage untouched. Returns
`(this.sessionId, storage content afterwards)`. -/
def initializeSession (stored : Option String) (freshId : String) :
    String × Option String :=
  match stored with
  | none => (freshId, some freshId)
  | some s => if s = "" then (freshId, some freshId) else (s, some s)

/-- The unit array `['Bytes', 'KB', 'MB', 'GB']` of `formatFileSize`. -/
def fileSizeUnits : List String := ["Bytes", "KB", "MB", "GB"]

/-- The observable output of `formatFileSize`: either the early `'0 Bytes'`
return (taken before any logarithm is computed), or the scaled amount with
its unit lookup (`none` models the JavaScript `undefined` of an
out-of-range `sizes[i]`). -/
inductive FileSizeText where
  | zero : FileSizeText
  | scaled (amount : ℚ) (unit : Option String) : FileSizeText
deriving DecidableEq, Repr

/-- Embeds `formatFileSize` lines 320–326. For `bytes ≥ 1` the exact-real
value of `Math.floor(Math.log(bytes) / Math.log(1024))` is
`Nat.log 1024 bytes`; the scaled amount `bytes / Math.pow(1024, i)` is kept
as an exact rational (its 2-decimal display rounding carries no unit
information). -/
def formatFileSize (bytes : Nat) : FileSizeText :=
  if bytes = 0 then .zero
  else
    .scaled ((bytes : ℚ) / (1024 : ℚ) ^ Nat.log 1024 bytes)
      fileSizeUnits[Nat.log 1024 bytes]?

/-! ## Helper lemmas -/

/-- A matcher only inspects the part of the input it consumes: appending
extra input extends the leftover accordingly. -/
def Extends (f : List Char → Option (List Char)) : Prop :=
  ∀ xs ys zs, f xs = some ys → f (xs ++ zs) = some (ys ++ zs)

theorem extends_consumeLit (p : List Char) : Extends (consumeLit p) := by
  induction p with
  | nil =>
    intro xs ys zs h
    simp only [consumeLit] at h
    cases h
    simp [consumeLit]
  | cons c ps ih =>
    intro xs ys zs h
    cases xs with
    | nil => exact absurd h (by simp [consumeLit])
    | cons x xt =>
      simp only [consumeLit] at h
      split at h
      · rename_i hx
        simpa [consumeLit, hx] using ih xt ys zs h
      · exact absurd h (by simp)

theorem extends_consumeHex (n : Nat) : Extends (consumeHex n) := by
  induction n with
  | zero =>
    intro xs ys zs h
    simp only [consumeHex] at h
    cases h
    simp [consumeHex]
  | succ m ih =>
    intro xs ys zs h
    cases xs with
    | nil => exact absurd h (by simp [consumeHex])
    | cons x xt =>
      simp only [consumeHex] at h
      split at h
      · rename_i hx
        simpa [consumeHex, hx] using ih xt ys zs h
      · exact absurd h (by simp)

theorem extends_bind {f g : List Char → Option (List Char)}
    (hf : Extends f) (hg : Extends g) :
    Extends (fun s => Option.bind (f s) g) := by
  intro xs ys zs h
  simp only [Option.bind_eq_some] at h
  obtain ⟨m, hm, hgm⟩ := h
  simp only
  rw [hf xs m zs hm, Option.some_bind]
  exact hg m ys zs hgm

theorem extends_matchUuid : Extends matchUuid := by
  unfold matchUuid
  exact extends_bind (extends_consumeHex 8) (extends_bind (extends_consumeLit _)
    (extends_bind (extends_consumeHex 4) (extends_bind (extends_consumeLit _)
    (extends_bind (extends_consumeHex 4) (extends_bind (extends_consumeLit _)
    (extends_bind (extends_consumeHex 4) (extends_bind (extends_consumeLit _)
    (extends_consumeHex 12))))))))

theorem consumeLit_self (p zs : List Char) : consumeLit p (p ++ zs) = some zs := by
  induction p with
  | nil => simp [consumeLit]
  | cons c ps ih => simp [consumeLit, ih]

/-- The display regex strips exactly the `temp-<token>-` part from an
identifier composed over a UUID-shaped token. -/
theorem matchTempUuidDash_of_uuid (token nn : String)
    (htok : matchUuid token.data = some []) :
    matchTempUuidDash ("temp-" ++ token ++ "-" ++ nn).data = some nn.data := by
  have hdash : ("-" : String).data = ['-'] := rfl
  have h1 : ("temp-" ++ token ++ "-" ++ nn).data
      = "temp-".data ++ (token.data ++ (['-'] ++ nn.data)) := by
    simp only [String.data_append, hdash, List.append_assoc]
  unfold matchTempUuidDash
  rw [h1, consumeLit_self, Option.some_bind]
  have h2 := extends_matchUuid token.data [] (['-'] ++ nn.data) htok
  rw [List.nil_append] at h2
  rw [h2, Option.some_bind]
  exact consumeLit_self ['-'] nn.data

theorem replaceDisallowed_allowed (l : List Char) :
    ∀ c ∈ replaceDisallowed l, charAllowed c = true := by
  intro c hc
  rcases List.mem_map.mp hc with ⟨d, _, rfl⟩
  by_cases h : charAllowed d = true
  · simp [h]
  · rw [if_neg h]
    decide

/-! ## Claims -/

/-- C1: for session tokens A ≠ B and any raw name, `resolve` never yields
the same identifier for both: identifiers of different sessions never
collide. -/
theorem resolve_no_collision (a b n ia ib : String) (hab : a ≠ b)
    (ha : resolve a n = Except.ok ia) (hb : resolve b n = Except.ok ib) :
    ia ≠ ib := by
  unfold resolve at ha hb
  split at ha
  · exact absurd ha (by simp)
  · split at hb
    · exact absurd hb (by simp)
    · have hia : ia = "temp-" ++ a ++ "-" ++ normalizeName n := by
        cases ha; rfl
      have hib : ib = "temp-" ++ b ++ "-" ++ normalizeName n := by
        cases hb; rfl
      subst hia
      subst hib
      intro heq
      apply hab
      have hd := congrArg String.data heq
      simp only [String.data_append, List.append_assoc] at hd
      have h3 : a.data = b.data :=
        List.append_cancel_right (List.append_cancel_left hd)
      cases a
      cases b
      exact congrArg String.mk h3

theorem resolve_no_collision_witness : ("temp-a-data" : String) ≠ "temp-b-data" :=
  resolve_no_collision "a" "b" "data" "temp-a-data" "temp-b-data"
    (by decide) rfl rfl

/-- C2: normalization (both the auto-generated index name of
`handleFileSelect` and the resolver's normalization) produces only
characters of `[a-z0-9_-]`, and `resolve` fails with `InvalidNameError`
exactly when the normalized name is empty. -/
theorem normalizeName_restricted (s t : String) :
    (∀ c ∈ (normalizeName s).data, charAllowed c = true) ∧
    (∀ c ∈ (autoIndexName s).data, charAllowed c = true) ∧
    (resolve t s = Except.error ResolveError.invalidName ↔ normalizeName s = "") := by
  refine ⟨?_, ?_, ?_⟩
  · intro c hc
    exact replaceDisallowed_allowed (jsToLower s.data) c hc
  · intro c hc
    exact replaceDisallowed_allowed (jsToLower (stripFirst ".csv".data s.data)) c hc
  · unfold resolve
    split
    · rename_i h
      simp [h]
    · rename_i h
      simp [h]

theorem normalizeName_restricted_witness : charAllowed '_' = true :=
  (normalizeName_restricted "My File!" "tok").1 '_' (by decide)

/-- C3 counterexample: the claim quantifies over every session token, but
the display transformation only strips tokens of the exact UUID shape; for
the token `"t"` the composed identifier is returned unchanged, not reduced
to the normalized name. -/
theorem displayName_resolve_counterexample :
    resolve "t" "My File!" = Except.ok "temp-t-my_file_" ∧
    displayName "temp-t-my_file_" ≠ normalizeName "My File!" := by
  constructor
  · rfl
  · decide

/-- C3 (amended): for every session token of the 8-4-4-4-12 hex UUID shape
(the shape every token generated by the application has) and every raw
name, stripping the session part from the resolved identifier yields
exactly the normalized raw name. -/
theorem displayName_resolve_roundtrip (token raw id : String)
    (htok : isUuidShaped token = true)
    (hres : resolve token raw = Except.ok id) :
    displayName id = normalizeName raw := by
  unfold resolve at hres
  split at hres
  · exact absurd hres (by simp)
  · have hid : id = "temp-" ++ token ++ "-" ++ normalizeName raw := by
      cases hres; rfl
    subst hid
    have hu : matchUuid token.data = some [] := by
      simpa [isUuidShaped] using htok
    unfold displayName
    rw [matchTempUuidDash_of_uuid token (normalizeName raw) hu]

theorem displayName_resolve_roundtrip_witness :
    displayName "temp-12345678-1234-4123-8123-123456789abc-my_file_"
      = normalizeName "My File!" :=
  displayName_resolve_roundtrip "12345678-1234-4123-8123-123456789abc"
    "My File!" "temp-12345678-1234-4123-8123-123456789abc-my_file_"
    (by decide) rfl

/-- C4: an identifier that does not match the anchored
`temp-<8-4-4-4-12 hex UUID>-` pattern is returned by the display
transformation completely unchanged (the function is total: no error is
possible). -/
theorem displayName_preserves_unmatched (s : String)
    (h : matchTempUuidDash s.data = none) : displayName s = s := by
  unfold displayName
  rw [h]

theorem displayName_preserves_unmatched_witness :
    displayName "products" = "products" :=
  displayName_preserves_unmatched "products" (by decide)

/-- C5: with an empty (or whitespace-only) query string, `performSearch`
is stopped by its guard: an alert message is surfaced and no engine query
is built or issued (in particular it is never turned into a match-all
query). -/
theorem emptyQuery_no_search (sid : Option String) (indices : List IndexEntry)
    (sel q : String) (sz : Nat) (hq : jsTrim q = "") :
    ∃ msg, performSearchRequest sid indices sel q sz = Except.error msg := by
  unfold performSearchRequest
  split
  · exact ⟨_, rfl⟩
  · rw [if_pos]
    · exact ⟨_, rfl⟩
    · simp [hq]

theorem emptyQuery_no_search_witness :
    ∃ msg, performSearchRequest (some "s") [] "idx" "   " 10
      = Except.error msg :=
  emptyQuery_no_search (some "s") [] "idx" "   " 10 (by decide)

/-- C7: whenever a search request is actually issued and the selected index
is found in `this.indices`, the aggregation fields sent with the request
are exactly the names of that index's text-typed columns. -/
theorem aggFields_text_only (sid : Option String) (indices : List IndexEntry)
    (sel q : String) (sz : Nat) (req : SearchRequest) (i : IndexEntry)
    (f : String)
    (hreq : performSearchRequest sid indices sel q sz = Except.ok req)
    (hfind : indices.find? (fun x => x.full_name == sel) = some i) :
    f ∈ req.agg_fields ↔ ∃ c ∈ i.columns, c.type = "text" ∧ c.name = f := by
  unfold performSearchRequest at hreq
  split at hreq
  · exact absurd hreq (by simp)
  · split at hreq
    · exact absurd hreq (by simp)
    · have hagg : req.agg_fields = textAggFields indices sel := by
        cases hreq; rfl
      rw [hagg]
      unfold textAggFields
      rw [hfind]
      simp only [List.mem_map, List.mem_filter]
      constructor
      · rintro ⟨c, ⟨hc, ht⟩, rfl⟩
        exact ⟨c, hc, by simpa using ht, rfl⟩
      · rintro ⟨c, hc, ht, rfl⟩
        exact ⟨c, ⟨hc, by simp [ht]⟩, rfl⟩

theorem aggFields_text_only_witness :
    "title" ∈ (SearchRequest.mk "idx" "hello" 10 ["title"] "s").agg_fields ↔
      ∃ c ∈ [Column.mk "title" "text", Column.mk "price" "float"],
        c.type = "text" ∧ c.name = "title" :=
  aggFields_text_only (some "s")
    [⟨"idx", "idx", [⟨"title", "text"⟩, ⟨"price", "float"⟩]⟩]
    "idx" "hello" 10 (SearchRequest.mk "idx" "hello" 10 ["title"] "s")
    ⟨"idx", "idx", [⟨"title", "text"⟩, ⟨"price", "float"⟩]⟩ "title"
    rfl rfl

theorem uuidReplace_length (rand : Nat → Nat) (cs : List Char) :
    ∀ k, (uuidReplace rand cs k).length = cs.length := by
  induction cs with
  | nil => intro k; rfl
  | cons c cs ih =>
    intro k
    unfold uuidReplace
    split
    · simp [ih]
    · split
      · simp [ih]
      · simp [ih]

/-- C6: pushing a completed search onto a history of at most 10 entries
keeps it at most 10 entries; on a full history the oldest (front) entry is
evicted and the new entry appended at the back, the survivors keeping
their insertion order. -/
theorem searchHistory_capped (h : List SearchHistoryEntry)
    (e : SearchHistoryEntry) (hlen : h.length ≤ 10) :
    (pushSearchHistory h e).length ≤ 10 ∧
    pushSearchHistory h e
      = if h.length = 10 then h.drop 1 ++ [e] else h ++ [e] := by
  have hdef : pushSearchHistory h e
      = if 10 < (h ++ [e]).length then (h ++ [e]).drop 1 else h ++ [e] := rfl
  rw [hdef]
  by_cases h10 : h.length = 10
  · have hgt : 10 < (h ++ [e]).length := by simp [h10]
    rw [if_pos hgt, if_pos h10, List.drop_append_of_le_length (by omega)]
    refine ⟨?_, rfl⟩
    simp [h10]
  · have hle : ¬ 10 < (h ++ [e]).length := by
      simp only [List.length_append, List.length_singleton]
      omega
    rw [if_neg hle, if_neg h10]
    refine ⟨?_, rfl⟩
    simp only [List.length_append, List.length_singleton]
    omega

theorem searchHistory_capped_witness :
    (pushSearchHistory (List.replicate 10 ⟨"q", 0, 0, 0⟩)
        ⟨"r", 1, 2, 3⟩).length ≤ 10 ∧
    pushSearchHistory (List.replicate 10 ⟨"q", 0, 0, 0⟩) ⟨"r", 1, 2, 3⟩
      = if (List.replicate 10 (⟨"q", 0, 0, 0⟩ : SearchHistoryEntry)).length = 10
        then (List.replicate 10
            (⟨"q", 0, 0, 0⟩ : SearchHistoryEntry)).drop 1 ++ [⟨"r", 1, 2, 3⟩]
        else List.replicate 10 ⟨"q", 0, 0, 0⟩ ++ [⟨"r", 1, 2, 3⟩] :=
  searchHistory_capped (List.replicate 10 ⟨"q", 0, 0, 0⟩) ⟨"r", 1, 2, 3⟩
    (by decide)

/-- C8: `initializeSession` generates and stores a fresh id only when
storage holds no token; with a (non-empty) stored token it reuses it and
leaves storage untouched; generated UUIDs are never empty; hence running
it again on the storage it produced returns the same token and state
(idempotence — the token is created at most once per storage lifetime). -/
theorem initializeSession_once :
    (∀ f, initializeSession none f = (f, some f)) ∧
    (∀ t f, t ≠ "" → initializeSession (some t) f = (t, some t)) ∧
    (∀ rand, generateUUID rand ≠ "") ∧
    (∀ stored f₁ f₂, f₁ ≠ "" →
      initializeSession (initializeSession stored f₁).2 f₂
        = initializeSession stored f₁) := by
  refine ⟨fun f => rfl, ?_, ?_, ?_⟩
  · intro t f ht
    simp [initializeSession, ht]
  · intro rand h
    have h36 : (generateUUID rand).length = 36 := by
      show (uuidReplace rand "xxxxxxxx-xxxx-4xxx-yxxx-xxxxxxxxxxxx".data 0).length
        = 36
      rw [uuidReplace_length]
      rfl
    rw [h] at h36
    exact absurd h36 (by decide)
  · intro stored f₁ f₂ hf
    match stored with
    | none => simp [initializeSession, hf]
    | some s =>
      by_cases hs : s = ""
      · simp [initializeSession, hs, hf]
      · simp [initializeSession, hs]

theorem initializeSession_once_witness :
    initializeSession (some "abc") "fresh" = ("abc", some "abc") :=
  initializeSession_once.2.1 "abc" "fresh" (by decide)

/-- C9: a `loadIndices` run never changes a non-empty index selection, and
auto-selects the first fetched index exactly when nothing was selected. -/
theorem loadIndices_preserves_selection :
    (∀ resp sel, sel ≠ "" → (loadIndices resp sel).2 = sel) ∧
    (∀ i rest, (loadIndices (i :: rest) "").2 = (toIndexEntry i).full_name) := by
  constructor
  · intro resp sel hsel
    show loadIndicesSelect (loadIndicesEntries resp) sel = sel
    unfold loadIndicesSelect
    rw [if_neg (by simp [hsel])]
  · intro i rest
    show loadIndicesSelect (loadIndicesEntries (i :: rest)) ""
      = (toIndexEntry i).full_name
    simp [loadIndicesEntries, loadIndicesSelect]

theorem loadIndices_preserves_selection_witness :
    (loadIndices [] "temp-x-sel").2 = "temp-x-sel" :=
  loadIndices_preserves_selection.1 [] "temp-x-sel" (by decide)

/-- C10: `formatFileSize 0` takes the early `'0 Bytes'` branch before any
logarithm is computed, and for every byte count in `[1, 1024^4)` the unit
index `floor(log bytes / log 1024)` stays within the four-element unit
array, so the formatted value always carries a defined unit suffix. -/
theorem formatFileSize_safe (b : Nat) (h1 : 1 ≤ b) (h2 : b < 1024 ^ 4) :
    formatFileSize 0 = FileSizeText.zero ∧
    Nat.log 1024 b ≤ 3 ∧
    ∃ u, formatFileSize b
        = FileSizeText.scaled ((b : ℚ) / (1024 : ℚ) ^ Nat.log 1024 b) (some u)
      ∧ u ∈ fileSizeUnits := by
  have hlog : Nat.log 1024 b < 4 := Nat.log_lt_of_lt_pow (by omega) h2
  refine ⟨rfl, by omega, ?_⟩
  have hlt : Nat.log 1024 b < fileSizeUnits.length := by
    simpa [fileSizeUnits] using hlog
  refine ⟨fileSizeUnits[Nat.log 1024 b], ?_, List.getElem_mem hlt⟩
  unfold formatFileSize
  rw [if_neg (by omega), List.getElem?_eq_getElem hlt]

theorem formatFileSize_safe_witness :
    formatFileSize 0 = FileSizeText.zero ∧
    Nat.log 1024 5000 ≤ 3 ∧
    ∃ u, formatFileSize 5000
        = FileSizeText.scaled (((5000 : ℕ) : ℚ)
            / (1024 : ℚ) ^ Nat.log 1024 5000) (some u)
      ∧ u ∈ fileSizeUnits :=
  formatFileSize_safe 5000 (by decide) (by norm_num)

end ElasticApp
